import Mathlib

/-!
Shallow embedding of the rest-timer subsystem of the gym-helper app
(src/src/App.jsx): the tick function of the countdown interval, the cue
(alert) policy of the value-watching effect, the localStorage persistence
layer, the TimerSheet command handlers, and the MM:SS formatter.
Machine numbers are modelled as Int (the reachable values are integers);
the JavaScript builtins String(), Number() and padStart are modelled on
the integer-format strings the app reads and writes.
-/

namespace GymHelper

/-! ### JavaScript string and number models -/

/-- Character of a single decimal digit, as JavaScript renders it. -/
def digitToChar (d : Nat) : Char := Char.ofNat (48 + d)

/-- Numeric value of a decimal digit character; none when the character is
not a digit. -/
def digitVal (c : Char) : Option Nat :=
  if 48 ≤ c.toNat ∧ c.toNat ≤ 57 then some (c.toNat - 48) else none

/-- Little-endian decimal digit characters of a natural number (the digits
JavaScript String() emits, least significant first). -/
def natToRevDigits (n : Nat) : List Char :=
  if h : n < 10 then [digitToChar n]
  else digitToChar (n % 10) :: natToRevDigits (n / 10)
decreasing_by exact Nat.div_lt_self (by omega) (by omega)

/-- Model of the JavaScript conversion String(n) for a non-negative
integer n. -/
def jsStringOfNat (n : Nat) : String := ⟨(natToRevDigits n).reverse⟩

/-- Model of the JavaScript conversion String(i) for an integer i, as used
by the effect writing the timer_seconds key. -/
def jsStringOfInt (i : Int) : String :=
  if i < 0 then "-" ++ jsStringOfNat i.natAbs else jsStringOfNat i.natAbs

/-- The string written to the timer_running key: running ? "1" : "0". -/
def jsStringOfBool (b : Bool) : String := if b then "1" else "0"

/-- Accumulating decimal parser over a character list; none as soon as a
non-digit character appears. -/
def parseDigitsAux : List Char → Nat → Option Nat
  | [], acc => some acc
  | c :: rest, acc =>
    match digitVal c with
    | some d => parseDigitsAux rest (acc * 10 + d)
    | none => none

/-- Decimal parser: a non-empty all-digit character list; none otherwise. -/
def parseDigits (l : List Char) : Option Nat :=
  if l.isEmpty then none else parseDigitsAux l 0

/-- Model of the JavaScript conversion Number(s) on the string shapes the
timer can meet in storage: the empty string converts to 0, an optionally
signed non-empty digit string converts to the signed value, and every
other string in scope converts to NaN, encoded none. (Fractional,
exponent and hexadecimal literals never arise from the app's own writes
and are outside the claims' scope.) -/
def jsNumberOfString (s : String) : Option Int :=
  if s.data = [] then some 0
  else if s.data.headD ' ' = '-' then (parseDigits s.data.tail).map (fun m => -(m : Int))
  else if s.data.headD ' ' = '+' then (parseDigits s.data.tail).map (fun m => (m : Int))
  else (parseDigits s.data).map (fun m => (m : Int))

/-! ### Persistence layer (TimerProvider lines 110-134)

The seconds initializer is
  const s = Number(localStorage.getItem("timer_seconds"));
  return Number.isFinite(s) ? s : 0;
getItem returns null when the key is absent, and Number(null) = 0, a
finite value, so the absent case rehydrates to 0. A string converting
to NaN fails Number.isFinite and also rehydrates to 0. The running
initializer is localStorage.getItem("timer_running") === "1". -/

/-- Rehydration of the seconds field from the stored timer_seconds value
(none when the key is absent). -/
def rehydrateSeconds (stored : Option String) : Int :=
  match stored with
  | none => 0
  | some s =>
    match jsNumberOfString s with
    | some n => n
    | none => 0

/-- Rehydration of the running flag from the stored timer_running value. -/
def rehydrateRunning (stored : Option String) : Bool :=
  stored == some "1"

/-! ### Timer state machine -/

/-- The persisted timer state: the seconds and running fields of
TimerProvider. (The sheetOpen flag is pure UI and never persisted; no
claim concerns it.) -/
structure TimerState where
  seconds : Int
  running : Bool
deriving DecidableEq

/-- One tick of the countdown interval:
setSeconds((s) => (s > 0 ? s - 1 : 0)). -/
def tickSeconds (s : Int) : Int := if s > 0 then s - 1 else 0

/-- One elapsed second of the useInterval source: the interval only exists
while running (delay is null otherwise), so a non-running state is
unchanged. -/
def tickState (st : TimerState) : TimerState :=
  if st.running then { st with seconds := tickSeconds st.seconds } else st

/-- Value the TimerSheet start handler writes:
seconds > 0 ? seconds : Math.max(0, mins) * 60 + Math.max(0, Math.min(59, secs)). -/
def startVal (mins secs seconds : Int) : Int :=
  if seconds > 0 then seconds else max 0 mins * 60 + max 0 (min 59 secs)

/-- The commands the UI surfaces issue against the shared timer state.
start carries the sheet's mins/secs inputs; setDuration is a bare
setSeconds(v); quickStart is the preset-chip handler
setSeconds(p); setRunning(true); tick is one elapsed interval second. -/
inductive Cmd where
  | start (mins secs : Int)
  | pause
  | stop
  | setDuration (v : Int)
  | quickStart (v : Int)
  | tick
deriving DecidableEq

/-- Effect of one command on the shared state, read off the handlers in
TimerSheet (start/pause/stop), QuickTimerChips (quickStart) and the
interval callback (tick). -/
def applyCmd : Cmd → TimerState → TimerState
  | .start mins secs, st => { seconds := startVal mins secs st.seconds, running := true }
  | .pause, st => { st with running := false }
  | .stop, _ => { seconds := 0, running := false }
  | .setDuration v, st => { st with seconds := v }
  | .quickStart v, _ => { seconds := v, running := true }
  | .tick, st => tickState st

/-- Run a command sequence from a state. -/
def runCmds (cmds : List Cmd) (st : TimerState) : TimerState :=
  cmds.foldl (fun s c => applyCmd c s) st

/-- Arguments the spec admits for the duration-setting commands
(setDuration takes a non-negative integer; presets are positive). -/
def cmdArgOk : Cmd → Prop
  | .setDuration v => 0 ≤ v
  | .quickStart v => 0 ≤ v
  | _ => True

/-! ### Alert (cue) policy (TimerProvider lines 136-147) -/

/-- The three audible cues of useBeep. -/
inductive Cue where
  | tick
  | accent
  | finish
deriving DecidableEq

/-- Cues the value-watching effect emits for one observed value change,
given the previous observed value, the new value and the running flag:
  if (running) {
    if (seconds > 0 && prev !== seconds) tick();
    if ([3, 2, 1].includes(seconds) && prev !== seconds) accent();
    if (seconds === 0 && prev > 0) finish(10000);
  }
listed in call order. -/
def cues (prev seconds : Int) (running : Bool) : List Cue :=
  if running then
    (if seconds > 0 ∧ prev ≠ seconds then [Cue.tick] else []) ++
      ((if (seconds = 3 ∨ seconds = 2 ∨ seconds = 1) ∧ prev ≠ seconds then [Cue.accent] else []) ++
        (if seconds = 0 ∧ prev > 0 then [Cue.finish] else []))
  else []

/-- Trace of k running ticks from a seconds value: after each tick, the
new value paired with the cues the effect emits for that change. -/
def runTrace : Nat → Int → List (Int × List Cue)
  | 0, _ => []
  | k + 1, s =>
    (tickSeconds s, cues s (tickSeconds s) true) :: runTrace k (tickSeconds s)

/-! ### MM:SS formatter (formatMMSS, lines 171-175) -/

/-- Model of the JavaScript s.padStart(2, "0"): prepend zeros until the
length is at least 2; a string already of length 2 or more is unchanged. -/
def jsPadStart2 (s : String) : String :=
  if s.length = 0 then "00"
  else if s.length = 1 then "0" ++ s
  else s

/-- The renderer's formatter:
  const m = Math.floor(total / 60);
  const s = total % 60;
  return padStart2(String(m)) ++ ":" ++ padStart2(String(s));
over the non-negative values the data model admits. -/
def formatMMSS (total : Nat) : String :=
  jsPadStart2 (jsStringOfNat (total / 60)) ++ ":" ++ jsPadStart2 (jsStringOfNat (total % 60))

/-! ### Basic lemmas on the state machine -/

theorem tickState_running (st : TimerState) : (tickState st).running = st.running := by
  unfold tickState
  split <;> rfl

theorem tickState_of_running (st : TimerState) (h : st.running = true) :
    tickState st = { seconds := tickSeconds st.seconds, running := true } := by
  unfold tickState
  rw [h]
  simp

theorem tickSeconds_max (s : Int) (h : 0 ≤ s) : tickSeconds s = max 0 (s - 1) := by
  unfold tickSeconds
  split <;> omega

theorem startVal_nonneg (mins secs seconds : Int) :
    0 ≤ startVal mins secs seconds := by
  unfold startVal
  split
  · omega
  · have h1 : (0 : Int) ≤ max 0 mins * 60 :=
      mul_nonneg (le_max_left 0 mins) (by norm_num)
    have h2 : (0 : Int) ≤ max 0 (min 59 secs) := le_max_left _ _
    omega

theorem applyCmd_seconds_nonneg (c : Cmd) (st : TimerState)
    (hok : cmdArgOk c) (h : 0 ≤ st.seconds) : 0 ≤ (applyCmd c st).seconds := by
  cases c with
  | start mins secs => exact startVal_nonneg mins secs st.seconds
  | pause => exact h
  | stop => exact le_refl 0
  | setDuration v => exact hok
  | quickStart v => exact hok
  | tick =>
      show 0 ≤ (tickState st).seconds
      unfold tickState
      split
      · show 0 ≤ tickSeconds st.seconds
        unfold tickSeconds
        split <;> omega
      · exact h

/-- None of the commands other than pause and stop can turn the running
flag off. -/
theorem running_cleared_only_by_pause_stop (c : Cmd) (st : TimerState)
    (hrun : st.running = true) (hoff : (applyCmd c st).running = false) :
    c = Cmd.pause ∨ c = Cmd.stop := by
  cases c with
  | start mins secs => simp [applyCmd] at hoff
  | pause => exact Or.inl rfl
  | stop => exact Or.inr rfl
  | setDuration v => simp [applyCmd, hrun] at hoff
  | quickStart v => simp [applyCmd] at hoff
  | tick =>
      rw [show applyCmd Cmd.tick st = tickState st from rfl, tickState_running] at hoff
      rw [hrun] at hoff
      cases hoff

/-! ### Claim theorems -/

/-- C1: while running, after exactly k elapsed ticks with no intervening
commands the seconds value is max 0 (initial - k), the running flag still
set; and each single tick maps a non-negative value s to max 0 (s - 1),
decrementing by one floored at zero. -/
theorem countdown_after_k_ticks (init : Int) (k : Nat) (h : 0 ≤ init) :
    tickState^[k] { seconds := init, running := true } =
      { seconds := max 0 (init - k), running := true } ∧
    (∀ s : Int, 0 ≤ s → tickSeconds s = max 0 (s - 1)) := by
  constructor
  · induction k with
    | zero =>
        simp only [Function.iterate_zero_apply, TimerState.mk.injEq, and_true]
        omega
    | succ k ih =>
        rw [Function.iterate_succ_apply', ih]
        rw [tickState_of_running _ rfl]
        simp only [TimerState.mk.injEq, and_true]
        unfold tickSeconds
        split <;> [skip; skip] <;> push_cast <;> omega
  · intro s hs
    exact tickSeconds_max s hs

/-- C1 witness: ten ticks from 7 seconds leave the timer at 0, running. -/
theorem countdown_after_k_ticks_witness :
    (0 : Int) ≤ 7 ∧
    tickState^[10] { seconds := 7, running := true } =
      { seconds := max 0 ((7 : Int) - (10 : Nat)), running := true } :=
  ⟨by norm_num, (countdown_after_k_ticks 7 10 (by norm_num)).1⟩

/-- C2: a run started at 5 seconds emits exactly tick at 4, tick and
accent at 3, at 2 and at 1, and finish at 0; in general, while running, a
tick cue is emitted exactly when the new value is positive and changed, an
accent exactly when the new value is 3, 2 or 1 and changed, and a finish
exactly when the value moved from positive to exactly 0. -/
theorem alert_sequence_from_five :
    runTrace 5 5 =
      [(4, [Cue.tick]), (3, [Cue.tick, Cue.accent]), (2, [Cue.tick, Cue.accent]),
        (1, [Cue.tick, Cue.accent]), (0, [Cue.finish])] ∧
    (∀ prev s : Int, Cue.tick ∈ cues prev s true ↔ (0 < s ∧ prev ≠ s)) ∧
    (∀ prev s : Int, Cue.accent ∈ cues prev s true ↔ ((s = 3 ∨ s = 2 ∨ s = 1) ∧ prev ≠ s)) ∧
    (∀ prev s : Int, Cue.finish ∈ cues prev s true ↔ (s = 0 ∧ 0 < prev)) := by
  refine ⟨by decide, ?_, ?_, ?_⟩ <;>
    · intro prev s
      unfold cues
      simp only [if_true, List.mem_append]
      split <;> split <;> split <;> simp_all

/-- C5: from a state with non-negative seconds, any sequence of start,
pause, stop, setDuration, quickStart and tick commands (duration-setting
arguments non-negative, as the spec admits) keeps the seconds value
non-negative; and no command other than an explicit pause or stop ever
clears the running flag — in particular a tick that reaches zero leaves
running set. -/
theorem timer_invariants (st : TimerState) (cmds : List Cmd)
    (h0 : 0 ≤ st.seconds) (hok : ∀ c ∈ cmds, cmdArgOk c) :
    0 ≤ (runCmds cmds st).seconds ∧
    (∀ (c : Cmd) (s : TimerState), s.running = true → (applyCmd c s).running = false →
      c = Cmd.pause ∨ c = Cmd.stop) := by
  constructor
  · induction cmds generalizing st with
    | nil => exact h0
    | cons c rest ih =>
        have hc : cmdArgOk c := hok c (List.mem_cons_self c rest)
        have hrest : ∀ d ∈ rest, cmdArgOk d := fun d hd => hok d (List.mem_cons_of_mem c hd)
        exact ih (applyCmd c st) (applyCmd_seconds_nonneg c st hc h0) hrest
  · exact fun c s => running_cleared_only_by_pause_stop c s

/-- C5 witness: a concrete command sequence that reaches zero while
running keeps seconds non-negative, and the pause-or-stop clause holds. -/
theorem timer_invariants_witness :
    (0 : Int) ≤ ({ seconds := 0, running := false } : TimerState).seconds ∧
    (0 ≤ (runCmds [Cmd.quickStart 1, Cmd.tick, Cmd.tick] { seconds := 0, running := false }).seconds ∧
      (∀ (c : Cmd) (s : TimerState), s.running = true → (applyCmd c s).running = false →
        c = Cmd.pause ∨ c = Cmd.stop)) := by
  refine ⟨by norm_num, timer_invariants _ [Cmd.quickStart 1, Cmd.tick, Cmd.tick] (by norm_num) ?_⟩
  intro c hc
  fin_cases hc <;> norm_num [cmdArgOk]

/-- C6: stop always yields seconds 0 and running false, whatever the
prior state. -/
theorem stop_resets (st : TimerState) :
    applyCmd Cmd.stop st = { seconds := 0, running := false } := rfl

/-- C7: pause from a running state with value v clears the running flag
and leaves the value at v; when v is positive, a subsequent start resumes
from exactly v, whatever the sheet's mins and secs inputs. -/
theorem pause_preserves_value (v mins secs : Int) :
    applyCmd Cmd.pause { seconds := v, running := true } =
      { seconds := v, running := false } ∧
    (0 < v →
      applyCmd (Cmd.start mins secs) (applyCmd Cmd.pause { seconds := v, running := true }) =
        { seconds := v, running := true }) := by
  constructor
  · rfl
  · intro hv
    show ({ seconds := startVal mins secs v, running := true } : TimerState) = _
    unfold startVal
    rw [if_pos hv]

/-- C7 witness: pausing at 90 and starting again resumes from 90. -/
theorem pause_preserves_value_witness :
    applyCmd Cmd.pause { seconds := 90, running := true } =
      { seconds := 90, running := false } ∧
    ((0 : Int) < 90 ∧
      applyCmd (Cmd.start 1 0) (applyCmd Cmd.pause { seconds := 90, running := true }) =
        { seconds := 90, running := true }) :=
  ⟨(pause_preserves_value 90 1 0).1, by norm_num,
    (pause_preserves_value 90 1 0).2 (by norm_num)⟩

theorem startVal_idem (mins secs x : Int) :
    startVal mins secs (startVal mins secs x) = startVal mins secs x := by
  unfold startVal
  by_cases h : x > 0
  · simp [h]
  · rw [if_neg h]
    split <;> rfl

/-- C8: with the sheet inputs unchanged, a second start call leaves the
state exactly as the first did, and the whole subsequent tick evolution is
identical — exactly one decrement occurs per elapsed second. -/
theorem start_idempotent (mins secs : Int) (st : TimerState) (k : Nat) :
    applyCmd (Cmd.start mins secs) (applyCmd (Cmd.start mins secs) st) =
      applyCmd (Cmd.start mins secs) st ∧
    tickState^[k] (applyCmd (Cmd.start mins secs) (applyCmd (Cmd.start mins secs) st)) =
      tickState^[k] (applyCmd (Cmd.start mins secs) st) := by
  have h : applyCmd (Cmd.start mins secs) (applyCmd (Cmd.start mins secs) st) =
      applyCmd (Cmd.start mins secs) st := by
    show ({ seconds := startVal mins secs (startVal mins secs st.seconds), running := true }
        : TimerState) = { seconds := startVal mins secs st.seconds, running := true }
    rw [startVal_idem]
  exact ⟨h, by rw [h]⟩

/-- C10: when the sheet's start control is pressed with the clock at 0,
the new duration is max 0 mins * 60 + max 0 (min 59 secs) — negative
inputs clamp to 0 and the seconds input contributes at most 59 — and the
timer starts running; when the clock is positive, the inputs are ignored
and the current value is kept. -/
theorem start_duration_from_inputs (mins secs : Int) (st : TimerState) :
    (st.seconds = 0 →
      applyCmd (Cmd.start mins secs) st =
        { seconds := max 0 mins * 60 + max 0 (min 59 secs), running := true }) ∧
    (0 < st.seconds →
      applyCmd (Cmd.start mins secs) st = { seconds := st.seconds, running := true }) := by
  constructor
  · intro h0
    show ({ seconds := startVal mins secs st.seconds, running := true } : TimerState) = _
    unfold startVal
    rw [h0]
    norm_num
  · intro hpos
    show ({ seconds := startVal mins secs st.seconds, running := true } : TimerState) = _
    unfold startVal
    rw [if_pos hpos]

/-- C10 witness: at 0 with inputs mins = -2, secs = 75, start sets 59
seconds; at 30 the inputs are ignored. -/
theorem start_duration_from_inputs_witness :
    (({ seconds := 0, running := false } : TimerState).seconds = 0 ∧
      applyCmd (Cmd.start (-2) 75) { seconds := 0, running := false } =
        { seconds := max 0 (-2) * 60 + max 0 (min 59 75), running := true }) ∧
    ((0 : Int) < ({ seconds := 30, running := true } : TimerState).seconds ∧
      applyCmd (Cmd.start (-2) 75) { seconds := 30, running := true } =
        { seconds := ({ seconds := 30, running := true } : TimerState).seconds,
          running := true }) :=
  ⟨⟨rfl, (start_duration_from_inputs (-2) 75 { seconds := 0, running := false }).1 rfl⟩,
    ⟨by norm_num, (start_duration_from_inputs (-2) 75 { seconds := 30, running := true }).2
      (by norm_num)⟩⟩

/-! ### Decimal printing and parsing lemmas -/

theorem digitToChar_toNat (d : Nat) (h : d < 10) : (digitToChar d).toNat = 48 + d := by
  interval_cases d <;> decide

theorem digitVal_digitToChar (d : Nat) (h : d < 10) : digitVal (digitToChar d) = some d := by
  unfold digitVal
  rw [digitToChar_toNat d h]
  rw [if_pos (by omega)]
  congr 1
  omega

theorem digitToChar_ne_minus (d : Nat) (h : d < 10) : digitToChar d ≠ '-' := by
  intro he
  have h1 : (digitToChar d).toNat = 48 + d := digitToChar_toNat d h
  have h2 : ('-').toNat = 45 := by decide
  rw [he, h2] at h1
  omega

theorem digitToChar_ne_plus (d : Nat) (h : d < 10) : digitToChar d ≠ '+' := by
  intro he
  have h1 : (digitToChar d).toNat = 48 + d := digitToChar_toNat d h
  have h2 : ('+').toNat = 43 := by decide
  rw [he, h2] at h1
  omega

theorem parseDigitsAux_append (l : List Char) (c : Char) (acc : Nat) :
    parseDigitsAux (l ++ [c]) acc =
      (parseDigitsAux l acc).bind (fun a => (digitVal c).map (fun d => a * 10 + d)) := by
  induction l generalizing acc with
  | nil =>
      show parseDigitsAux [c] acc = _
      unfold parseDigitsAux
      cases digitVal c <;> simp [parseDigitsAux]
  | cons hd tl ih =>
      show parseDigitsAux (hd :: (tl ++ [c])) acc = _
      unfold parseDigitsAux
      cases digitVal hd <;> simp [ih]

theorem natToRevDigits_parse (n : Nat) :
    ∀ acc : Nat, parseDigitsAux (natToRevDigits n).reverse acc =
      some (acc * 10 ^ (natToRevDigits n).length + n) := by
  induction n using Nat.strong_induction_on with
  | _ n ih =>
    intro acc
    rw [natToRevDigits]
    by_cases h : n < 10
    · rw [dif_pos h]
      show parseDigitsAux [digitToChar n] acc = _
      unfold parseDigitsAux
      rw [digitVal_digitToChar n h]
      show some (acc * 10 + n) = _
      norm_num
    · rw [dif_neg h]
      rw [List.reverse_cons, parseDigitsAux_append]
      rw [ih (n / 10) (Nat.div_lt_self (by omega) (by omega)) acc]
      rw [digitVal_digitToChar (n % 10) (Nat.mod_lt n (by omega))]
      show some ((acc * 10 ^ (natToRevDigits (n / 10)).length + n / 10) * 10 + n % 10) = _
      congr 1
      rw [List.length_cons, pow_succ, Nat.add_mul, Nat.mul_assoc, Nat.add_assoc]
      congr 1
      omega

theorem natToRevDigits_ne_nil (n : Nat) : natToRevDigits n ≠ [] := by
  rw [natToRevDigits]
  split <;> simp

theorem mem_natToRevDigits (n : Nat) :
    ∀ c ∈ natToRevDigits n, ∃ d, d < 10 ∧ c = digitToChar d := by
  induction n using Nat.strong_induction_on with
  | _ n ih =>
    rw [natToRevDigits]
    by_cases h : n < 10
    · rw [dif_pos h]
      intro c hc
      rw [List.mem_singleton] at hc
      exact ⟨n, h, hc⟩
    · rw [dif_neg h]
      intro c hc
      rcases List.mem_cons.mp hc with h1 | h1
      · exact ⟨n % 10, Nat.mod_lt n (by omega), h1⟩
      · exact ih (n / 10) (Nat.div_lt_self (by omega) (by omega)) c h1

theorem parseDigits_jsStringOfNat (n : Nat) :
    parseDigits (jsStringOfNat n).data = some n := by
  show parseDigits (natToRevDigits n).reverse = some n
  unfold parseDigits
  rw [if_neg (by simp [natToRevDigits_ne_nil n])]
  rw [natToRevDigits_parse n 0]
  norm_num

theorem jsNumberOfString_jsStringOfInt (i : Int) :
    jsNumberOfString (jsStringOfInt i) = some i := by
  unfold jsStringOfInt
  by_cases h : i < 0
  · rw [if_pos h]
    unfold jsNumberOfString
    have hdata : ("-" ++ jsStringOfNat i.natAbs).data = '-' :: (jsStringOfNat i.natAbs).data := by
      rw [String.data_append]
      rfl
    rw [hdata]
    rw [if_neg (by simp)]
    simp only [List.headD_cons, List.tail_cons]
    rw [if_pos trivial]
    rw [parseDigits_jsStringOfNat]
    show some (-(i.natAbs : Int)) = some i
    congr 1
    omega
  · rw [if_neg h]
    unfold jsNumberOfString
    have hne := natToRevDigits_ne_nil i.natAbs
    rcases hrev : (natToRevDigits i.natAbs).reverse with _ | ⟨c, rest⟩
    · exact absurd (List.reverse_eq_nil_iff.mp hrev) hne
    · have hcd : (jsStringOfNat i.natAbs).data = c :: rest := hrev
      rw [hcd]
      have hmem : c ∈ natToRevDigits i.natAbs := by
        have hm2 : c ∈ (natToRevDigits i.natAbs).reverse := by
          rw [hrev]
          exact List.mem_cons_self c rest
        exact List.mem_reverse.mp hm2
      obtain ⟨d, hd, hcd2⟩ := mem_natToRevDigits i.natAbs c hmem
      rw [if_neg (by simp)]
      simp only [List.headD_cons, List.tail_cons]
      rw [if_neg (by rw [hcd2]; exact digitToChar_ne_minus d hd)]
      rw [if_neg (by rw [hcd2]; exact digitToChar_ne_plus d hd)]
      rw [show c :: rest = (jsStringOfNat i.natAbs).data from hcd.symm]
      rw [parseDigits_jsStringOfNat]
      show some ((i.natAbs : Nat) : Int) = some i
      congr 1
      omega

/-- C3: writing any integer seconds value and any running flag to storage
in the app's encodings and rehydrating reproduces them exactly; an absent
seconds key, an absent running key, or a seconds string Number turns into
NaN all rehydrate to 0 and not running. -/
theorem persistence_roundtrip (n : Int) (r : Bool) (s : String)
    (hs : jsNumberOfString s = none) :
    rehydrateSeconds (some (jsStringOfInt n)) = n ∧
    rehydrateRunning (some (jsStringOfBool r)) = r ∧
    rehydrateSeconds (some s) = 0 ∧
    rehydrateSeconds none = 0 ∧
    rehydrateRunning none = false := by
  refine ⟨?_, ?_, ?_, rfl, rfl⟩
  · simp [rehydrateSeconds, jsNumberOfString_jsStringOfInt]
  · cases r <;> decide
  · simp [rehydrateSeconds, hs]

/-- C3 witness: the round trip at -7 seconds, running, with the
non-numeric stored string "abc". -/
theorem persistence_roundtrip_witness :
    jsNumberOfString "abc" = none ∧
    (rehydrateSeconds (some (jsStringOfInt (-7))) = -7 ∧
      rehydrateRunning (some (jsStringOfBool true)) = true ∧
      rehydrateSeconds (some "abc") = 0 ∧
      rehydrateSeconds none = 0 ∧
      rehydrateRunning none = false) :=
  ⟨by decide, persistence_roundtrip (-7) true "abc" (by decide)⟩

/-- C4 counterexample: the claim says a stored "-5" must rehydrate to 0,
but Number("-5") = -5 is finite, so the initializer keeps it: rehydration
yields -5, not 0. -/
theorem rehydrate_negative_kept :
    rehydrateSeconds (some "-5") = -5 ∧ rehydrateSeconds (some "-5") ≠ 0 := by
  decide

/-- C4 amended: a stored seconds value that is non-numeric, or an absent
key, rehydrates to 0 and not running; but a stored negative numeric value
is not sanitized — it rehydrates to its negative value unchanged. -/
theorem rehydrate_invalid_amended (s : String) (hs : jsNumberOfString s = none) :
    rehydrateSeconds (some s) = 0 ∧
    rehydrateSeconds none = 0 ∧
    rehydrateRunning none = false ∧
    (∀ n : Int, n < 0 → rehydrateSeconds (some (jsStringOfInt n)) = n) := by
  refine ⟨?_, rfl, rfl, ?_⟩
  · simp [rehydrateSeconds, hs]
  · intro n _
    simp [rehydrateSeconds, jsNumberOfString_jsStringOfInt]

/-- C4 amended witness: the non-numeric stored string "soon" and the
negative stored value -5. -/
theorem rehydrate_invalid_amended_witness :
    jsNumberOfString "soon" = none ∧
    (rehydrateSeconds (some "soon") = 0 ∧
      rehydrateSeconds none = 0 ∧
      rehydrateRunning none = false ∧
      (∀ n : Int, n < 0 → rehydrateSeconds (some (jsStringOfInt n)) = n)) :=
  ⟨by decide, rehydrate_invalid_amended "soon" (by decide)⟩

/-! ### Formatter lemmas -/

theorem jsStringOfNat_lt10 (m : Nat) (h : m < 10) :
    jsStringOfNat m = ⟨[digitToChar m]⟩ := by
  unfold jsStringOfNat
  rw [natToRevDigits, dif_pos h]
  rfl

theorem jsStringOfNat_two_digits (m : Nat) (h1 : 10 ≤ m) (h2 : m < 100) :
    jsStringOfNat m = ⟨[digitToChar (m / 10), digitToChar (m % 10)]⟩ := by
  unfold jsStringOfNat
  rw [natToRevDigits, dif_neg (by omega)]
  rw [natToRevDigits, dif_pos (by omega : m / 10 < 10)]
  rfl

theorem jsPadStart2_two_digits (m : Nat) (h : m < 100) :
    (jsPadStart2 (jsStringOfNat m)).data = [digitToChar (m / 10), digitToChar (m % 10)] := by
  by_cases h1 : m < 10
  · rw [jsStringOfNat_lt10 m h1]
    unfold jsPadStart2
    have hlen : (⟨[digitToChar m]⟩ : String).length = 1 := rfl
    rw [if_neg (by rw [hlen]; omega), if_pos hlen]
    rw [String.data_append]
    have hd0 : digitToChar (m / 10) = '0' := by
      rw [Nat.div_eq_of_lt h1]
      decide
    rw [hd0, Nat.mod_eq_of_lt h1]
    rfl
  · rw [jsStringOfNat_two_digits m (by omega) h]
    unfold jsPadStart2
    have hlen : (⟨[digitToChar (m / 10), digitToChar (m % 10)]⟩ : String).length = 2 := rfl
    rw [if_neg (by rw [hlen]; omega), if_neg (by rw [hlen]; omega)]

/-- C9 counterexample: at 6000 remaining seconds the minutes field is 100
— three digits, not two — so the output "100:00" is six characters long,
refuting the universally quantified two-digit MM:SS shape. -/
theorem formatMMSS_minutes_overflow :
    (formatMMSS 6000).data = ['1', '0', '0', ':', '0', '0'] ∧
    (formatMMSS 6000).data.length ≠ 5 := by
  have h100 : jsStringOfNat 100 = ⟨['1', '0', '0']⟩ := by
    unfold jsStringOfNat
    rw [natToRevDigits, dif_neg (by omega)]
    rw [natToRevDigits, dif_neg (by omega)]
    rw [natToRevDigits, dif_pos (by omega)]
    rfl
  have hmain : (formatMMSS 6000).data = ['1', '0', '0', ':', '0', '0'] := by
    unfold formatMMSS
    rw [String.data_append, String.data_append]
    rw [show (6000 : Nat) / 60 = 100 from rfl, show (6000 : Nat) % 60 = 0 from rfl]
    rw [h100, jsStringOfNat_lt10 0 (by omega)]
    unfold jsPadStart2
    rw [if_neg (by decide), if_neg (by decide)]
    rw [if_neg (by decide), if_pos (by decide)]
    rfl
  exact ⟨hmain, by rw [hmain]; decide⟩

/-- C9 amended: whenever the value is below 6000 seconds (minutes below
100), the formatter renders exactly five characters — two-digit
zero-padded minutes floor(total/60), a colon, and two-digit zero-padded
seconds total mod 60; with 100 minutes or more the minutes field grows
beyond two digits. -/
theorem formatMMSS_spec (total : Nat) (h : total < 6000) :
    (formatMMSS total).data =
      [digitToChar (total / 60 / 10), digitToChar (total / 60 % 10), ':',
        digitToChar (total % 60 / 10), digitToChar (total % 60 % 10)] := by
  unfold formatMMSS
  rw [String.data_append, String.data_append]
  rw [jsPadStart2_two_digits (total / 60) (by omega)]
  rw [jsPadStart2_two_digits (total % 60) (by omega)]
  rfl

/-- C9 amended witness: 125 seconds renders as the five characters of
02:05. -/
theorem formatMMSS_spec_witness :
    125 < 6000 ∧
    (formatMMSS 125).data =
      [digitToChar (125 / 60 / 10), digitToChar (125 / 60 % 10), ':',
        digitToChar (125 % 60 / 10), digitToChar (125 % 60 % 10)] :=
  ⟨by norm_num, formatMMSS_spec 125 (by norm_num)⟩

end GymHelper
